import Mathlib

/-!
Verification of the `7-estimators-multi-gpus.ipynb` notebook.

The notebook's own code consists of: normalizing Fashion-MNIST pixel arrays,
reshaping them to (N, 28, 28, 1), one-hot encoding labels, building two
`tf.data` input pipelines (an in-memory one for Fashion-MNIST and a
file-based one for the OCT dataset), a `TimeHistory` session-run hook, and
printing throughput numbers derived from the recorded step times.

Each of those pieces is embedded below as an executable Lean definition,
mirroring the notebook cell it comes from.  Machine floats are modelled by
exact rationals; the `tf.data.Dataset` pipeline is modelled as a free term
recording which library transformation was applied with which arguments.
-/

/-! ### Pixel normalization (cell: `train_images = np.asarray(...)/255`) -/

/-- `np.asarray(img, dtype=np.float32) / 255` applied to one pixel,
over exact rationals. -/
def normalize_pixel (v : ℚ) : ℚ := v / 255

/-- Normalization of a whole image array (elementwise `/ 255`). -/
def normalize_array (img : List ℚ) : List ℚ := img.map normalize_pixel

/-! ### One-hot label encoding (cell: `tf.keras.utils.to_categorical`) -/

/-- `LABEL_DIMENSIONS = 10`: number of Fashion-MNIST categories. -/
def LABEL_DIMENSIONS : Nat := 10

/-- `tf.keras.utils.to_categorical(l, num_classes)`: row `l` of the
`num_classes × num_classes` identity matrix. -/
def to_categorical (l : Nat) (num_classes : Nat) : List ℚ :=
  (List.range num_classes).map (fun j => if j = l then 1 else 0)

/-- `tf.one_hot(i, n)` where the index may be `-1` (out-of-vocabulary
lookup result), in which case every entry is `0`. -/
def one_hot (i : Int) (n : Nat) : List ℚ :=
  (List.range n).map (fun j : Nat => if (j : Int) = i then 1 else 0)

/-- Sum of an indicator row over `List.range n` is `1` when the hot index
is in range. -/
theorem sum_range_indicator (n l : Nat) (h : l < n) :
    ((List.range n).map (fun j => if j = l then (1 : ℚ) else 0)).sum = 1 := by
  induction n with
  | zero => omega
  | succ n ih =>
    rw [List.range_succ, List.map_append, List.sum_append]
    by_cases hl : l = n
    · subst hl
      have hz : ((List.range l).map (fun j => if j = l then (1 : ℚ) else 0)).sum = 0 := by
        apply List.sum_eq_zero
        intro x hx
        rcases List.mem_map.mp hx with ⟨j, hj, rfl⟩
        have := List.mem_range.mp hj
        simp [Nat.ne_of_lt this]
      rw [hz]
      simp
    · have hln : l < n := by omega
      rw [ih hln]
      have hne : n ≠ l := fun hc => hl hc.symm
      simp [hne]

/-- **C4**: every uint8 pixel intensity `v` with `0 ≤ v ≤ 255` is mapped by
the notebook's normalization (`float` conversion then division by 255) into
the closed interval `[0, 1]`, hence every element of a normalized train or
test image array lies in `[0, 1]`. -/
theorem normalized_pixels_in_unit_interval (img : List ℚ)
    (h : ∀ v ∈ img, 0 ≤ v ∧ v ≤ 255) :
    ∀ w ∈ normalize_array img, 0 ≤ w ∧ w ≤ 1 := by
  intro w hw
  rcases List.mem_map.mp hw with ⟨v, hv, rfl⟩
  rcases h v hv with ⟨h0, h255⟩
  simp only [normalize_pixel]
  constructor
  · exact div_nonneg h0 (by norm_num)
  · rw [div_le_one (by norm_num)]
    exact h255

/-- Witness for C4: the pixel 128 of the concrete image `[0, 128, 255]`. -/
theorem normalized_pixels_in_unit_interval_witness :
    0 ≤ normalize_pixel 128 ∧ normalize_pixel 128 ≤ 1 :=
  normalized_pixels_in_unit_interval [0, 128, 255] (by norm_num)
    (normalize_pixel 128)
    (List.mem_map_of_mem normalize_pixel (by norm_num))

/-- **C5**: for every integer class label `l < 10`, `to_categorical l 10`
has length `LABEL_DIMENSIONS = 10`, value `1` at index `l`, `0` at every
other index, and its entries sum to exactly `1`; hence this holds for every
row of the encoded train and test label matrices. -/
theorem to_categorical_one_hot (raw : List Nat)
    (h : ∀ l ∈ raw, l < LABEL_DIMENSIONS) :
    ∀ l ∈ raw,
      (to_categorical l LABEL_DIMENSIONS).length = LABEL_DIMENSIONS ∧
      (to_categorical l LABEL_DIMENSIONS).get? l = some 1 ∧
      (∀ j, j < LABEL_DIMENSIONS → j ≠ l →
        (to_categorical l LABEL_DIMENSIONS).get? j = some 0) ∧
      (to_categorical l LABEL_DIMENSIONS).sum = 1 := by
  intro l hl
  have hlt : l < LABEL_DIMENSIONS := h l hl
  refine ⟨?_, ?_, ?_, ?_⟩
  · simp [to_categorical]
  · rw [to_categorical, List.get?_map, List.get?_range hlt]
    simp
  · intro j hj hne
    rw [to_categorical, List.get?_map, List.get?_range hj]
    simp [hne]
  · exact sum_range_indicator LABEL_DIMENSIONS l hlt

/-- Witness for C5 at the concrete label list `[3]`. -/
theorem to_categorical_one_hot_witness :
    (to_categorical 3 LABEL_DIMENSIONS).length = LABEL_DIMENSIONS ∧
    (to_categorical 3 LABEL_DIMENSIONS).get? 3 = some 1 ∧
    (∀ j, j < LABEL_DIMENSIONS → j ≠ 3 →
      (to_categorical 3 LABEL_DIMENSIONS).get? j = some 0) ∧
    (to_categorical 3 LABEL_DIMENSIONS).sum = 1 :=
  to_categorical_one_hot [3] (by decide) 3 (by decide)

/-! ### `tf.data` pipeline model

A dataset value is modelled as a free term recording which library
transformation was applied, with which arguments, to which source. -/

/-- A `tf.data.Dataset` pipeline term.  Constructors correspond to the
library calls the notebook makes: `from_tensor_slices`, `list_files`
(whose `shuffle=` argument is recorded), `shuffle`, `repeat`, `batch`,
`prefetch`, `tf.contrib.data.shuffle_and_repeat` (applied via
`dataset.apply`) and `tf.contrib.data.map_and_batch` (whose map function
is the OCT `_map_func`, modelled separately as `map_func_label`). -/
inductive Dataset where
  | from_tensor_slices (images labels : List (List ℚ))
  | list_files (file_pattern : String) (shuffled : Bool)
  | shuffle (buffer_size : Nat) (d : Dataset)
  | repeatD (count : Option Nat) (d : Dataset)
  | batch (batch_size : Nat) (d : Dataset)
  | prefetch (buffer_size : Option Nat) (d : Dataset)
  | shuffle_and_repeat (buffer_size : Nat) (count : Option Nat) (d : Dataset)
  | map_and_batch (batch_size : Nat) (num_parallel_calls : Option Nat) (d : Dataset)
  deriving DecidableEq, Repr

/-- `SHUFFLE_SIZE = 5000` from the Fashion-MNIST `input_fn`. -/
def SHUFFLE_SIZE : Nat := 5000

/-- The Fashion-MNIST `input_fn(images, labels, epochs, batch_size)`:
`from_tensor_slices`, then `.shuffle(SHUFFLE_SIZE).repeat(epochs)
.batch(batch_size)`, then `.prefetch(None)`. -/
def input_fn (images labels : List (List ℚ)) (epochs : Nat)
    (batch_size : Nat) : Dataset :=
  let dataset := Dataset.from_tensor_slices images labels
  let dataset :=
    ((dataset.shuffle SHUFFLE_SIZE).repeatD (some epochs)).batch batch_size
  let dataset := dataset.prefetch none
  dataset

/-- **C2**: for every images array, labels array, epochs and batch size,
the Fashion-MNIST `input_fn` builds exactly the pipeline
slice → shuffle(5000) → repeat(epochs) → batch(batch_size) → prefetch,
in that order, and returns it. -/
theorem input_fn_pipeline_order (images labels : List (List ℚ))
    (epochs batch_size : Nat) :
    input_fn images labels epochs batch_size =
      Dataset.prefetch none
        (Dataset.batch batch_size
          (Dataset.repeatD (some epochs)
            (Dataset.shuffle 5000
              (Dataset.from_tensor_slices images labels)))) := rfl

/-! ### The OCT `input_fn` (second definition of `input_fn` in the
notebook; Lean needs a distinct name) -/

/-- `os.sep` on the POSIX host the notebook runs on. -/
def os_sep : Char := '/'

/-- Split a character list at every occurrence of `sep`; `acc` holds the
(reversed) characters of the token currently being read. -/
def split_chars (sep : Char) (acc : List Char) : List Char → List String
  | [] => [String.mk acc.reverse]
  | c :: cs =>
    if c = sep then String.mk acc.reverse :: split_chars sep [] cs
    else split_chars sep (c :: acc) cs

/-- `tf.string_split([filename], delimiter=os.sep).values`: the tokens of
the path split on the separator; TF's `string_split` defaults to
`skip_empty=True`, so empty tokens are dropped. -/
def string_split_values (filename : String) : List String :=
  (split_chars os_sep [] filename.toList).filter (fun t => t ≠ "")

/-- `.values[-2]`: Python index `-2` into the token list, i.e. the
second-to-last `os.sep`-separated component — the file's parent directory
name (defined here via `getD`; the notebook only ever evaluates it on
paths with at least two components). -/
def parent_component (filename : String) : String :=
  (string_split_values filename).getD
    ((string_split_values filename).length - 2) ""

/-- `tf.contrib.lookup.index_table_from_tensor(mapping=labels)` followed
by `table.lookup(key)`: the index of the first occurrence of `key` in
`labels`, or the default out-of-vocabulary value `-1` when absent. -/
def index_table_lookup (labels : List String) (key : String) : Int :=
  match labels.findIdx? (fun x => x = key) with
  | some i => (i : Int)
  | none => -1

/-- The label half of the OCT `_map_func`:
`tf.one_hot(table.lookup(label), num_classes)` where
`label = tf.string_split([filename], os.sep).values[-2]` and
`num_classes = len(labels)`. -/
def map_func_label (labels : List String) (filename : String) : List ℚ :=
  one_hot (index_table_lookup labels (parent_component filename))
    labels.length

/-- The OCT `input_fn(file_pattern, labels, ...)` pipeline structure.
`cpu_count` models `os.cpu_count()` (the `num_parallel_calls` argument of
`map_and_batch`); the remaining parameters carry the notebook's default
values.  The branch mirrors the source:
`if num_epochs is not None and shuffle: ... elif shuffle: ...
elif num_epochs is not None: ...`. -/
def input_fn_oct (file_pattern : String) (labels : List String)
    (cpu_count : Option Nat)
    (shuffle : Bool := false)
    (batch_size : Nat := 64)
    (num_epochs : Option Nat := none)
    (buffer_size : Nat := 4096)
    (prefetch_buffer_size : Option Nat := none) : Dataset :=
  let _num_classes := labels.length
  let dataset := Dataset.list_files file_pattern shuffle
  let dataset :=
    if num_epochs.isSome && shuffle then
      Dataset.shuffle_and_repeat buffer_size num_epochs dataset
    else if shuffle then
      Dataset.shuffle buffer_size dataset
    else if num_epochs.isSome then
      Dataset.repeatD num_epochs dataset
    else
      dataset
  let dataset := Dataset.map_and_batch batch_size cpu_count dataset
  Dataset.prefetch prefetch_buffer_size dataset

/-- **C1**: for every file path with at least two path components (as every
path matched by the pattern `OCT2017/…/**/*.jpeg` has) whose parent
directory name occurs in the `labels` list at (first) index `j`, the label
the OCT `_map_func` pairs with the decoded image is the one-hot vector of
length `len(labels)` with its single `1` at index `j`; moreover the parent
directory name alone determines the label. -/
theorem oct_label_from_parent_dir (labels : List String) (filename : String)
    (hpat : 2 ≤ (string_split_values filename).length) (j : Nat)
    (hj : labels.findIdx? (fun x => x = parent_component filename) = some j) :
    (map_func_label labels filename).length = labels.length ∧
    (map_func_label labels filename).get? j = some 1 ∧
    (∀ k, k < labels.length → k ≠ j →
      (map_func_label labels filename).get? k = some 0) ∧
    (∀ g : String, parent_component g = parent_component filename →
      map_func_label labels g = map_func_label labels filename) := by
  have hjlt : j < labels.length := by
    rcases List.findIdx?_eq_some_iff_getElem.mp hj with ⟨hlt, -, -⟩
    exact hlt
  have hlook :
      index_table_lookup labels (parent_component filename) = (j : Int) := by
    rw [index_table_lookup, hj]
  refine ⟨?_, ?_, ?_, ?_⟩
  · simp [map_func_label, one_hot]
  · simp only [map_func_label, hlook, one_hot]
    rw [List.get?_map, List.get?_range hjlt]
    simp
  · intro k hk hkj
    simp only [map_func_label, hlook, one_hot]
    rw [List.get?_map, List.get?_range hk]
    simp [hkj]
  · intro g hg
    simp only [map_func_label, hg]

/-- Witness for C1 at the path `OCT2017/train/DME/img-0001.jpeg` with the
notebook's label list. -/
theorem oct_label_from_parent_dir_witness :
    (map_func_label ["CNV", "DME", "DRUSEN", "NORMAL"]
        "OCT2017/train/DME/img-0001.jpeg").get? 1 = some 1 :=
  (oct_label_from_parent_dir ["CNV", "DME", "DRUSEN", "NORMAL"]
      "OCT2017/train/DME/img-0001.jpeg" (by decide) 1 (by decide)).2.1

/-- **C10**: the four-way branch on `(shuffle, num_epochs)` in the OCT
`input_fn` is exhaustive and mutually exclusive — exactly one of fused
shuffle-and-repeat (`shuffle` and `num_epochs` set), shuffle alone,
repeat alone, or no transformation is applied to the file list — and with
the default arguments (`shuffle=False`, `num_epochs=None`) the files are
neither shuffled nor repeated: a single deterministic pass. -/
theorem oct_branch_cases (p : String) (lbls : List String) (cc : Option Nat)
    (sh : Bool) (numEp : Option Nat) (bs buf : Nat) (pb : Option Nat) :
    (((numEp ≠ none ∧ sh = true) ∧ ¬(numEp = none ∧ sh = true) ∧
        ¬(numEp ≠ none ∧ sh = false) ∧ ¬(numEp = none ∧ sh = false)) ∨
      (¬(numEp ≠ none ∧ sh = true) ∧ (numEp = none ∧ sh = true) ∧
        ¬(numEp ≠ none ∧ sh = false) ∧ ¬(numEp = none ∧ sh = false)) ∨
      (¬(numEp ≠ none ∧ sh = true) ∧ ¬(numEp = none ∧ sh = true) ∧
        ((numEp ≠ none ∧ sh = false)) ∧ ¬(numEp = none ∧ sh = false)) ∨
      (¬(numEp ≠ none ∧ sh = true) ∧ ¬(numEp = none ∧ sh = true) ∧
        ¬(numEp ≠ none ∧ sh = false) ∧ (numEp = none ∧ sh = false))) ∧
    (numEp ≠ none ∧ sh = true →
      input_fn_oct p lbls cc sh bs numEp buf pb =
        Dataset.prefetch pb (Dataset.map_and_batch bs cc
          (Dataset.shuffle_and_repeat buf numEp
            (Dataset.list_files p sh)))) ∧
    (numEp = none ∧ sh = true →
      input_fn_oct p lbls cc sh bs numEp buf pb =
        Dataset.prefetch pb (Dataset.map_and_batch bs cc
          (Dataset.shuffle buf (Dataset.list_files p sh)))) ∧
    (numEp ≠ none ∧ sh = false →
      input_fn_oct p lbls cc sh bs numEp buf pb =
        Dataset.prefetch pb (Dataset.map_and_batch bs cc
          (Dataset.repeatD numEp (Dataset.list_files p sh)))) ∧
    (numEp = none ∧ sh = false →
      input_fn_oct p lbls cc sh bs numEp buf pb =
        Dataset.prefetch pb (Dataset.map_and_batch bs cc
          (Dataset.list_files p sh))) ∧
    input_fn_oct p lbls cc =
      Dataset.prefetch none (Dataset.map_and_batch 64 cc
        (Dataset.list_files p false)) := by
  cases sh <;> rcases numEp with _ | e <;>
    simp [input_fn_oct]

/-- Witness for C10: the default-argument case at the notebook's pattern
and labels, with `os.cpu_count() = 8`. -/
theorem oct_branch_cases_witness :
    input_fn_oct "OCT2017/train/**/*.jpeg" ["CNV", "DME", "DRUSEN", "NORMAL"]
        (some 8) false 64 none 4096 none =
      Dataset.prefetch none (Dataset.map_and_batch 64 (some 8)
        (Dataset.list_files "OCT2017/train/**/*.jpeg" false)) :=
  (oct_branch_cases "OCT2017/train/**/*.jpeg" ["CNV", "DME", "DRUSEN", "NORMAL"]
      (some 8) false none 64 4096 none).2.2.2.2.1 ⟨rfl, rfl⟩

/-! ### `TimeHistory` session-run hook -/

/-- State of a `TimeHistory` hook: `times` is the list of recorded
per-step durations, `iter_time_start` the timestamp taken before the
current step. -/
structure TimeHistory where
  times : List ℚ := []
  iter_time_start : ℚ := 0
  deriving DecidableEq, Repr

/-- `begin(self)`: `self.times = []`. -/
def TimeHistory.hook_begin (s : TimeHistory) : TimeHistory :=
  { s with times := [] }

/-- `before_run(self, run_context)`: `self.iter_time_start = time.time()`;
`now` is the value returned by `time.time()`. -/
def TimeHistory.before_run (s : TimeHistory) (now : ℚ) : TimeHistory :=
  { s with iter_time_start := now }

/-- `after_run(self, run_context, run_values)`:
`self.times.append(time.time() - self.iter_time_start)`. -/
def TimeHistory.after_run (s : TimeHistory) (now : ℚ) : TimeHistory :=
  { s with times := s.times ++ [now - s.iter_time_start] }

/-- A run of `n` training steps: for each pair `(t_before, t_after)` of
clock readings, `before_run` at `t_before` then `after_run` at
`t_after`. -/
def TimeHistory.run_steps (s : TimeHistory) (steps : List (ℚ × ℚ)) :
    TimeHistory :=
  steps.foldl (fun st p => (st.before_run p.1).after_run p.2) s

/-- Auxiliary invariant for C3: `run_steps` appends one nonnegative entry
per step when each step's second clock reading is at least its first. -/
theorem run_steps_invariant (steps : List (ℚ × ℚ)) :
    ∀ s : TimeHistory, (∀ p ∈ steps, p.1 ≤ p.2) →
      (s.run_steps steps).times.length = s.times.length + steps.length ∧
      (∀ t ∈ (s.run_steps steps).times, t ∈ s.times ∨ 0 ≤ t) := by
  induction steps with
  | nil =>
    intro s _
    exact ⟨rfl, fun t ht => Or.inl ht⟩
  | cons p ps ih =>
    intro s hmono
    have hstep : ((s.before_run p.1).after_run p.2).times
        = s.times ++ [p.2 - p.1] := rfl
    have hrest := ih ((s.before_run p.1).after_run p.2)
      (fun q hq => hmono q (List.mem_cons_of_mem p hq))
    refine ⟨?_, ?_⟩
    · have := hrest.1
      rw [TimeHistory.run_steps, List.foldl_cons] at *
      rw [this, hstep]
      simp [List.length_append]
      omega
    · intro t ht
      rw [TimeHistory.run_steps, List.foldl_cons] at ht
      rcases hrest.2 t ht with hin | hnn
      · rw [hstep] at hin
        rcases List.mem_append.mp hin with hin' | hin'
        · exact Or.inl hin'
        · right
          have : t = p.2 - p.1 := by simpa using hin'
          have hle := hmono p (List.mem_cons_self p ps)
          rw [this]
          linarith
      · exact Or.inr hnn

/-- **C3**: after `begin` followed by `n` `before_run`/`after_run` pairs,
the recorded-times list has exactly `n` entries, each entry being the
elapsed time of its step (after-timestamp minus before-timestamp), hence
nonnegative under a monotone clock. -/
theorem time_history_records_each_step (s : TimeHistory)
    (steps : List (ℚ × ℚ)) (hmono : ∀ p ∈ steps, p.1 ≤ p.2) :
    ((s.hook_begin).run_steps steps).times.length = steps.length ∧
    (∀ t ∈ ((s.hook_begin).run_steps steps).times, 0 ≤ t) := by
  have h := run_steps_invariant steps s.hook_begin hmono
  have hbegin : (s.hook_begin).times = [] := rfl
  refine ⟨?_, ?_⟩
  · have := h.1
    rw [hbegin] at this
    simpa using this
  · intro t ht
    rcases h.2 t ht with hin | hnn
    · rw [hbegin] at hin
      simp at hin
    · exact hnn

/-- Witness for C3 at a concrete two-step run. -/
theorem time_history_records_each_step_witness :
    ((TimeHistory.hook_begin ⟨[5], 0⟩).run_steps
        [(1, 2), (2, 2)]).times.length = 2 ∧
    (∀ t ∈ ((TimeHistory.hook_begin ⟨[5], 0⟩).run_steps
        [(1, 2), (2, 2)]).times, 0 ≤ t) :=
  time_history_records_each_step ⟨[5], 0⟩ [(1, 2), (2, 2)] (by decide)

/-! ### Printed throughput numbers -/

/-- `BATCH_SIZE = 512` (Fashion-MNIST training cell). -/
def BATCH_SIZE : ℚ := 512

/-- `NUM_GPUS = 2`. -/
def NUM_GPUS : ℚ := 2

/-- `total_time = sum(time_hist.times)`. -/
def total_time (times : List ℚ) : ℚ := times.sum

/-- `np.mean(time_hist.times)`: arithmetic mean over exact rationals. -/
def np_mean (times : List ℚ) : ℚ := times.sum / times.length

/-- `avg_time_per_batch = np.mean(time_hist.times)`. -/
def avg_time_per_batch (times : List ℚ) : ℚ := np_mean times

/-- The printed `BATCH_SIZE*NUM_GPUS/avg_time_per_batch`. -/
def images_per_second (batch_size num_gpus : ℚ) (times : List ℚ) : ℚ :=
  batch_size * num_gpus / avg_time_per_batch times

/-- **C6**: with at least one recorded step time, the printed total
training time is exactly the sum of the recorded per-step times, and the
printed images-per-second figure is exactly `BATCH_SIZE * NUM_GPUS`
divided by the arithmetic mean of the recorded per-step times (over exact
rational arithmetic). -/
theorem throughput_numbers (times : List ℚ) (hne : times ≠ []) :
    total_time times = times.sum ∧
    images_per_second BATCH_SIZE NUM_GPUS times =
      512 * 2 / (times.sum / times.length) := ⟨rfl, rfl⟩

/-- Witness for C6 at the concrete step-time list `[1/2, 3/2]`. -/
theorem throughput_numbers_witness :
    total_time [1/2, 3/2] = ([1/2, 3/2] : List ℚ).sum ∧
    images_per_second BATCH_SIZE NUM_GPUS [1/2, 3/2] =
      512 * 2 / (([1/2, 3/2] : List ℚ).sum / ([1/2, 3/2] : List ℚ).length) :=
  throughput_numbers [1/2, 3/2] (by decide)

/-! ### Reshape to `(N, 28, 28, 1)` -/

/-- Split a list into consecutive chunks of `s` elements (row-major
regrouping, as `numpy.reshape` does on a contiguous array). -/
def chunk {α : Type} (s : Nat) (l : List α) : List (List α) :=
  match s, l with
  | _, [] => []
  | 0, _ :: _ => []
  | s + 1, x :: xs => (x :: xs.take s) :: chunk (s + 1) (xs.drop s)
termination_by l.length
decreasing_by
  simp only [List.length_cons, List.length_drop]
  omega

/-- Concatenating the chunks gives back the original list. -/
theorem chunk_flatten {α : Type} (s : Nat) (hs : 0 < s) (l : List α) :
    (chunk s l).flatten = l := by
  obtain ⟨t, rfl⟩ := Nat.exists_eq_add_of_lt hs
  rw [Nat.zero_add]
  suffices h : ∀ (n : Nat) (l : List α), l.length ≤ n →
      (chunk (t + 1) l).flatten = l by
    exact h l.length l le_rfl
  intro n
  induction n with
  | zero =>
    intro l h
    have : l = [] := List.eq_nil_of_length_eq_zero (Nat.le_zero.mp h)
    subst this
    rw [chunk]
    rfl
  | succ n ih =>
    intro l h
    match l with
    | [] =>
      rw [chunk]
      rfl
    | x :: xs =>
      rw [chunk]
      have hdrop : (xs.drop t).length ≤ n := by
        simp only [List.length_drop]
        simp only [List.length_cons] at h
        omega
      rw [List.flatten_cons]
      rw [ih (xs.drop t) hdrop]
      simp [List.take_append_drop]

/-- When the length is an exact multiple `n * s`, `chunk s` produces
exactly `n` chunks, each of length `s`. -/
theorem chunk_full {α : Type} (s : Nat) :
    ∀ (n : Nat) (l : List α), l.length = n * (s + 1) →
      (chunk (s + 1) l).length = n ∧
      ∀ c ∈ chunk (s + 1) l, c.length = s + 1 := by
  intro n
  induction n with
  | zero =>
    intro l h
    have : l = [] := List.eq_nil_of_length_eq_zero (by omega)
    subst this
    rw [chunk]
    exact ⟨rfl, by intro c hc; cases hc⟩
  | succ n ih =>
    intro l h
    rw [Nat.succ_mul] at h
    match l with
    | [] =>
      exfalso
      simp at h
      omega
    | x :: xs =>
      simp only [List.length_cons] at h
      have hxs : xs.length = n * (s + 1) + s := by omega
      have hdrop : (xs.drop s).length = n * (s + 1) := by
        simp only [List.length_drop]
        omega
      rcases ih (xs.drop s) hdrop with ⟨h1, h2⟩
      rw [chunk]
      refine ⟨by simp [h1], ?_⟩
      intro c hc
      rcases List.mem_cons.mp hc with rfl | hc'
      · simp only [List.length_cons, List.length_take]
        omega
      · exact h2 c hc'

/-- `train_images.reshape((N, 28, 28, 1))` on the row-major flat pixel
list: `N` images, each 28 rows of 28 pixels of 1 channel. -/
def reshape_n_28_28_1 (v : List ℚ) : List (List (List (List ℚ))) :=
  (chunk (28 * 28) v).map (fun img =>
    (chunk 28 img).map (fun row => row.map (fun p => [p])))

/-- Flattening a rank-4 tensor back to the row-major flat list. -/
def flatten4 (t : List (List (List (List ℚ)))) : List ℚ :=
  (t.map (fun img => (img.map (fun row => row.flatten)).flatten)).flatten

/-- Mapping each element to a singleton and concatenating is the
identity. -/
theorem flatten_map_singleton (l : List ℚ) :
    (l.map (fun p => [p])).flatten = l := by
  induction l with
  | nil => rfl
  | cons x xs ih => simp [ih]

/-- Rebuilding each row from its singleton channels is the identity on a
list of rows. -/
theorem map_flatten_singleton_rows (L : List (List ℚ)) :
    L.map (fun row => (row.map (fun p => [p])).flatten) = L := by
  induction L with
  | nil => rfl
  | cons r rs ih => simp [flatten_map_singleton, ih]

/-- One image's worth of the flattening round-trip. -/
theorem flatten_one_image (c : List ℚ) :
    (((chunk 28 c).map (fun row => row.map (fun p => [p]))).map
      (fun row => row.flatten)).flatten = c := by
  rw [List.map_map]
  show ((chunk 28 c).map (fun row => (row.map (fun p => [p])).flatten)).flatten = c
  rw [map_flatten_singleton_rows]
  exact chunk_flatten 28 (by norm_num) c

/-- **C7**: reshaping a flat pixel list holding exactly `N·28·28·1` values
to shape `(N, 28, 28, 1)` preserves the total element count and every
element's value in order — flattening the reshaped tensor returns the
input unchanged — and produces `N` images of 28 rows of 28 single-channel
pixels. -/
theorem reshape_preserves_values (N : Nat) (v : List ℚ)
    (h : v.length = N * (28 * 28 * 1)) :
    flatten4 (reshape_n_28_28_1 v) = v ∧
    (flatten4 (reshape_n_28_28_1 v)).length = N * (28 * 28 * 1) ∧
    (reshape_n_28_28_1 v).length = N ∧
    (∀ img ∈ reshape_n_28_28_1 v, img.length = 28 ∧
      ∀ row ∈ img, row.length = 28 ∧ ∀ p ∈ row, p.length = 1) := by
  have hv : v.length = N * (783 + 1) := by omega
  have houter := chunk_full 783 N v hv
  have hflat : flatten4 (reshape_n_28_28_1 v) = v := by
    rw [reshape_n_28_28_1, flatten4, List.map_map]
    have hcong : ∀ c ∈ chunk (28 * 28) v,
        ((fun img : List (List (List ℚ)) =>
            (img.map (fun row => row.flatten)).flatten) ∘
          (fun img : List ℚ =>
            (chunk 28 img).map (fun row => row.map (fun p => [p])))) c
          = c := by
      intro c _
      exact flatten_one_image c
    rw [List.map_congr_left hcong, List.map_id']
    have : (28 : Nat) * 28 = 783 + 1 := by norm_num
    rw [this]
    exact chunk_flatten (783 + 1) (by omega) v
  refine ⟨hflat, by rw [hflat, h], ?_, ?_⟩
  · show ((chunk (28 * 28) v).map _).length = N
    rw [List.length_map]
    have : (28 : Nat) * 28 = 783 + 1 := by norm_num
    rw [this]
    exact houter.1
  · intro img himg
    rcases List.mem_map.mp himg with ⟨c, hc, rfl⟩
    have hc784 : c.length = 783 + 1 := by
      apply houter.2
      have : (28 : Nat) * 28 = 783 + 1 := by norm_num
      rw [this] at hc
      exact hc
    have hinner := chunk_full 27 28 c (by omega)
    constructor
    · rw [List.length_map]
      exact hinner.1
    · intro row hrow
      rcases List.mem_map.mp hrow with ⟨r, hr, rfl⟩
      have hr28 : r.length = 27 + 1 := hinner.2 r hr
      constructor
      · rw [List.length_map]
        omega
      · intro p hp
        rcases List.mem_map.mp hp with ⟨q, hq, rfl⟩
        rfl

/-- Witness for C7 at the all-zero flat list of length `784 = 1·28·28·1`. -/
theorem reshape_preserves_values_witness :
    flatten4 (reshape_n_28_28_1 (List.replicate 784 (0 : ℚ)))
      = List.replicate 784 (0 : ℚ) :=
  (reshape_preserves_values 1 (List.replicate 784 0)
    (by simp only [List.length_replicate])).1

/-! ### VGG16 layer freezing -/

/-- A Keras layer as the freezing loop sees it: its `trainable` flag plus
its other attributes (name, weights), which the loop must not touch. -/
structure Layer where
  layer_name : String
  trainable : Bool
  weights : List ℚ
  deriving DecidableEq, Repr

/-- The loop body `layer.trainable = False`. -/
def set_untrainable (l : Layer) : Layer := { l with trainable := false }

/-- `for layer in keras_vgg16.layers[:-4]: layer.trainable = False`:
state-passing embedding of the loop over the layer list — the layers in
the Python slice `[:-4]` (all but the last four) are updated, the rest
kept as they are. -/
def freeze_loop (layers : List Layer) : List Layer :=
  (layers.take (layers.length - 4)).map set_untrainable ++
    layers.drop (layers.length - 4)

/-- The full model's layer list after the loop: the (partially frozen)
VGG16 backbone followed by the newly added `Flatten` and `Dense` head,
which the loop never iterates over. -/
def model_layers_after_freeze (vgg_layers head_layers : List Layer) :
    List Layer :=
  freeze_loop vgg_layers ++ head_layers

/-- The mapped prefix of `freeze_loop` has length `len - 4`. -/
theorem freeze_prefix_length (vgg_layers : List Layer) :
    ((vgg_layers.take (vgg_layers.length - 4)).map set_untrainable).length
      = vgg_layers.length - 4 := by
  rw [List.length_map, List.length_take]
  omega

/-- **C9**: the freezing loop sets `trainable := false` on exactly the
layers of `keras_vgg16` other than its last four, changing nothing else:
each frozen entry differs from the original only by `set_untrainable`
(same name, same weights), the last four backbone layers are left
entirely unchanged (so they keep `trainable = true` when they started
that way), and the appended `Flatten`/`Dense` head layers are untouched. -/
theorem freeze_loop_frame (vgg_layers head_layers : List Layer)
    (htr : ∀ l ∈ vgg_layers, l.trainable = true) :
    (freeze_loop vgg_layers).length = vgg_layers.length ∧
    (∀ i, i < vgg_layers.length - 4 →
      (freeze_loop vgg_layers).get? i =
        (vgg_layers.get? i).map set_untrainable) ∧
    (∀ i, vgg_layers.length - 4 ≤ i →
      (freeze_loop vgg_layers).get? i = vgg_layers.get? i) ∧
    (∀ i, i < vgg_layers.length - 4 →
      ((freeze_loop vgg_layers).get? i).map Layer.trainable = some false ∧
      ((freeze_loop vgg_layers).get? i).map Layer.layer_name
        = (vgg_layers.get? i).map Layer.layer_name ∧
      ((freeze_loop vgg_layers).get? i).map Layer.weights
        = (vgg_layers.get? i).map Layer.weights) ∧
    (∀ i, vgg_layers.length - 4 ≤ i → i < vgg_layers.length →
      ((freeze_loop vgg_layers).get? i).map Layer.trainable = some true) ∧
    (model_layers_after_freeze vgg_layers head_layers).drop
      vgg_layers.length = head_layers := by
  have hplen := freeze_prefix_length vgg_layers
  have hget_lo : ∀ i, i < vgg_layers.length - 4 →
      (freeze_loop vgg_layers).get? i =
        (vgg_layers.get? i).map set_untrainable := by
    intro i hi
    rw [freeze_loop, List.get?_append (by rw [hplen]; exact hi),
      List.get?_map, List.get?_take (by omega)]
  have hget_hi : ∀ i, vgg_layers.length - 4 ≤ i →
      (freeze_loop vgg_layers).get? i = vgg_layers.get? i := by
    intro i hi
    rw [freeze_loop, List.get?_append_right (by rw [hplen]; exact hi),
      hplen, List.get?_drop]
    congr 1
    omega
  have hlen : (freeze_loop vgg_layers).length = vgg_layers.length := by
    rw [freeze_loop, List.length_append, hplen, List.length_drop]
    omega
  refine ⟨hlen, hget_lo, hget_hi, ?_, ?_, ?_⟩
  · intro i hi
    have hlt : i < vgg_layers.length := by omega
    rcases hsome : vgg_layers.get? i with _ | a
    · rw [List.get?_eq_none] at hsome
      omega
    · rw [hget_lo i hi, hsome]
      exact ⟨rfl, rfl, rfl⟩
  · intro i hi hlt
    rcases hsome : vgg_layers.get? i with _ | a
    · rw [List.get?_eq_none] at hsome
      omega
    · rw [hget_hi i hi, hsome]
      have hmem : a ∈ vgg_layers := List.get?_mem hsome
      simp [htr a hmem]
  · rw [model_layers_after_freeze, ← hlen, List.drop_left]

/-- Witness for C9 on a six-layer backbone (all initially trainable) and
a two-layer head. -/
theorem freeze_loop_frame_witness :
    (freeze_loop
        [⟨"block1_conv1", true, [1]⟩, ⟨"block1_conv2", true, [2]⟩,
         ⟨"block5_conv2", true, [3]⟩, ⟨"block5_conv3", true, [4]⟩,
         ⟨"block5_pool", true, [5]⟩, ⟨"flatten_src", true, [6]⟩]).length
      = 6 :=
  (freeze_loop_frame
    [⟨"block1_conv1", true, [1]⟩, ⟨"block1_conv2", true, [2]⟩,
     ⟨"block5_conv2", true, [3]⟩, ⟨"block5_conv3", true, [4]⟩,
     ⟨"block5_pool", true, [5]⟩, ⟨"flatten_src", true, [6]⟩]
    [⟨"flatten_head", true, []⟩, ⟨"dense_head", true, []⟩]
    (by decide)).1

/-! ### Error propagation: no authored exception handling

The notebook's functions contain no `try`/`except`.  Each is re-expressed
in the `Except` monad with every library call it makes treated as a
fallible oracle; the authored code just sequences the calls, so an error
is returned exactly when (and with exactly the exception with which) one
of the invoked library calls fails. -/

/-- The Fashion-MNIST `input_fn` with its library calls
(`from_tensor_slices`, `.shuffle`, `.repeat`, `.batch`, `.prefetch`) as
fallible oracles. -/
def input_fn_exc {ε δ : Type}
    (from_tensor_slices : Except ε δ)
    (shuffle_call repeat_call batch_call prefetch_call :
      δ → Except ε δ) : Except ε δ := do
  let dataset ← from_tensor_slices
  let dataset ← shuffle_call dataset
  let dataset ← repeat_call dataset
  let dataset ← batch_call dataset
  prefetch_call dataset

/-- The OCT `input_fn` with its library calls
(`index_table_from_tensor`, `list_files`, the branch-selected transform,
`map_and_batch` via `apply`, `.prefetch`) as fallible oracles; `τ` is the
lookup-table type, created first as in the source. -/
def input_fn_oct_exc {ε τ δ : Type}
    (index_table_from_tensor : Except ε τ)
    (list_files_call : Except ε δ)
    (shuffle_and_repeat_call shuffle_call repeat_call :
      δ → Except ε δ)
    (map_and_batch_call : τ → δ → Except ε δ)
    (prefetch_call : δ → Except ε δ)
    (shuffle : Bool) (num_epochs : Option Nat) : Except ε δ :=
  index_table_from_tensor >>= fun table =>
  list_files_call >>= fun dataset =>
  (if num_epochs.isSome && shuffle then shuffle_and_repeat_call dataset
   else if shuffle then shuffle_call dataset
   else if num_epochs.isSome then repeat_call dataset
   else pure dataset) >>= fun dataset =>
  map_and_batch_call table dataset >>= fun dataset =>
  prefetch_call dataset

/-- `TimeHistory.begin` makes no library call: it cannot raise. -/
def hook_begin_exc {ε : Type} (s : TimeHistory) : Except ε TimeHistory :=
  pure s.hook_begin

/-- `TimeHistory.before_run` calls `time.time()` once. -/
def before_run_exc {ε : Type} (time_time : Except ε ℚ) (s : TimeHistory) :
    Except ε TimeHistory := do
  let now ← time_time
  pure (s.before_run now)

/-- `TimeHistory.after_run` calls `time.time()` once and appends. -/
def after_run_exc {ε : Type} (time_time : Except ε ℚ) (s : TimeHistory) :
    Except ε TimeHistory := do
  let now ← time_time
  pure (s.after_run now)

/-- A bind in `Except` fails with `e` iff the first argument does or it
succeeds and the continuation fails with `e`. -/
theorem except_bind_error_iff {ε α β : Type} (m : Except ε α)
    (f : α → Except ε β) (e : ε) :
    (m >>= f) = Except.error e ↔
      (m = Except.error e ∨ ∃ a, m = Except.ok a ∧ f a = Except.error e) := by
  cases m with
  | error e' => simp [Bind.bind, Except.bind]
  | ok a => simp [Bind.bind, Except.bind]

/-- **C8**: none of the notebook-authored functions (either `input_fn`, or
any `TimeHistory` method) contains exception handling: each returns an
error exactly when one of the library calls it makes fails, and the
error value is propagated unchanged; `begin`, which makes no library
call, never fails. -/
theorem no_authored_error_handling {ε τ δ : Type}
    (from_tensor_slices : Except ε δ)
    (shuffle_call repeat_call batch_call prefetch_call : δ → Except ε δ)
    (index_table_from_tensor : Except ε τ)
    (list_files_call : Except ε δ)
    (shuffle_and_repeat_call : δ → Except ε δ)
    (map_and_batch_call : τ → δ → Except ε δ)
    (sh : Bool) (numEp : Option Nat)
    (time_time : Except ε ℚ) (s : TimeHistory) (e : ε) :
    (input_fn_exc from_tensor_slices shuffle_call repeat_call batch_call
        prefetch_call = Except.error e ↔
      (from_tensor_slices = Except.error e ∨
        ∃ d0, from_tensor_slices = Except.ok d0 ∧
          (shuffle_call d0 = Except.error e ∨
            ∃ d1, shuffle_call d0 = Except.ok d1 ∧
              (repeat_call d1 = Except.error e ∨
                ∃ d2, repeat_call d1 = Except.ok d2 ∧
                  (batch_call d2 = Except.error e ∨
                    ∃ d3, batch_call d2 = Except.ok d3 ∧
                      prefetch_call d3 = Except.error e))))) ∧
    (input_fn_oct_exc index_table_from_tensor list_files_call
        shuffle_and_repeat_call shuffle_call repeat_call
        map_and_batch_call prefetch_call sh numEp = Except.error e ↔
      (index_table_from_tensor = Except.error e ∨
        ∃ t, index_table_from_tensor = Except.ok t ∧
          (list_files_call = Except.error e ∨
            ∃ d0, list_files_call = Except.ok d0 ∧
              ((if numEp.isSome && sh then shuffle_and_repeat_call d0
                else if sh then shuffle_call d0
                else if numEp.isSome then repeat_call d0
                else pure d0) = Except.error e ∨
                ∃ d1, (if numEp.isSome && sh then
                      shuffle_and_repeat_call d0
                    else if sh then shuffle_call d0
                    else if numEp.isSome then repeat_call d0
                    else pure d0) = Except.ok d1 ∧
                  (map_and_batch_call t d1 = Except.error e ∨
                    ∃ d2, map_and_batch_call t d1 = Except.ok d2 ∧
                      prefetch_call d2 = Except.error e))))) ∧
    hook_begin_exc (ε := ε) s = Except.ok s.hook_begin ∧
    (before_run_exc time_time s = Except.error e ↔
      time_time = Except.error e) ∧
    (after_run_exc time_time s = Except.error e ↔
      time_time = Except.error e) := by
  refine ⟨?_, ?_, rfl, ?_, ?_⟩
  · simp only [input_fn_exc, except_bind_error_iff]
  · simp only [input_fn_oct_exc, except_bind_error_iff]
  · cases time_time with
    | error e' => simp [before_run_exc, Bind.bind, Except.bind]
    | ok a => simp [before_run_exc, Bind.bind, Except.bind, Pure.pure, Except.pure]
  · cases time_time with
    | error e' => simp [after_run_exc, Bind.bind, Except.bind]
    | ok a => simp [after_run_exc, Bind.bind, Except.bind, Pure.pure, Except.pure]
